import Mathlib

/-!
Peaceful Valley: terrain generation pass, water shader, keyboard navigation.

A shallow embedding of the procedural parts of `nature-scene/main.js`
(height assignment, normal recomputation, vertex classification, the key
listeners and `handleKeyboard`) and of the GLSL programs of
`nature-scene/shaders/waterShader.js`.

JavaScript and GLSL numbers are idealised as elements of a linearly ordered
field `α` (exact arithmetic, no rounding, no NaN).  The definitions are
computable for `α = ℚ`; the library functions `Math.sqrt`, `Math.sin`, GLSL
`sin` and `cos` are parameters, instantiated with `Real.sqrt`, `Real.sin`,
`Real.cos` in the theorems that need their analytic properties.
-/

namespace PeacefulValley

variable {α : Type}

/-! ## Library data: vectors, colours, buffer geometry -/

/-- Three components of one vertex of a buffer attribute with `itemSize = 3`. -/
structure Vector3 (α : Type) where
  x : α
  y : α
  z : α
deriving DecidableEq, Repr

/-- An RGB colour as held by `THREE.Color`. -/
structure Color (α : Type) where
  r : α
  g : α
  b : α
deriving DecidableEq, Repr

/-- Method `Color.setHex` as called by `new THREE.Color(hex)`: each channel is one byte
of the hexadecimal literal divided by 255. -/
def Color.setHex [DivisionRing α] (hex : Nat) : Color α :=
  { r := (((hex >>> 16) &&& 255 : Nat) : α) / 255
    g := (((hex >>> 8) &&& 255 : Nat) : α) / 255
    b := ((hex &&& 255 : Nat) : α) / 255 }

/-- Method `Color.multiplyScalar(s)`: every channel is multiplied by `s`. -/
def Color.multiplyScalar [Mul α] (c : Color α) (s : α) : Color α :=
  { r := c.r * s, g := c.g * s, b := c.b * s }

/-- Constant `const grassColor = new THREE.Color(0x68b36b)` (main.js line 94). -/
def grassColor [DivisionRing α] : Color α := Color.setHex 0x68b36b

/-- Constant `const rockColor = new THREE.Color(0x8c8c8c)` (main.js line 95). -/
def rockColor [DivisionRing α] : Color α := Color.setHex 0x8c8c8c

/-- Constant `const snowColor = new THREE.Color(0xf2f6fa)` (main.js line 96). -/
def snowColor [DivisionRing α] : Color α := Color.setHex 0xf2f6fa

/-- A counted loop `for (let i = 0; i < n; i++) body(i)` threading the mutated
state `s` through the iterations in increasing order of `i`. -/
def forLoop {σ : Type} (n : Nat) (body : Nat → σ → σ) (s : σ) : σ :=
  (List.range n).foldl (fun acc i => body i acc) s

/-- Accessor `BufferAttribute.getX(i)`; an index outside the buffer reads as 0 here. -/
def getX [Zero α] (a : List (Vector3 α)) (i : Nat) : α := (a.getD i ⟨0, 0, 0⟩).x

/-- Accessor `BufferAttribute.getY(i)`. -/
def getY [Zero α] (a : List (Vector3 α)) (i : Nat) : α := (a.getD i ⟨0, 0, 0⟩).y

/-- Accessor `BufferAttribute.getZ(i)`. -/
def getZ [Zero α] (a : List (Vector3 α)) (i : Nat) : α := (a.getD i ⟨0, 0, 0⟩).z

/-- Mutator `BufferAttribute.setZ(i, z)`: overwrites the third component of vertex `i`. -/
def setZ [Zero α] (a : List (Vector3 α)) (i : Nat) (z : α) : List (Vector3 α) :=
  a.set i { a.getD i ⟨0, 0, 0⟩ with z := z }

/-- Mutator `BufferAttribute.setXYZ(i, x, y, z)`. -/
def setXYZ (a : List (Vector3 α)) (i : Nat) (v : Vector3 α) : List (Vector3 α) :=
  a.set i v

/-- Method `Vector3.fromBufferAttribute(attribute, i)`. -/
def fromBufferAttribute [Zero α] (a : List (Vector3 α)) (i : Nat) : Vector3 α :=
  ⟨getX a i, getY a i, getZ a i⟩

/-- Method `Vector3.subVectors(a, b)`. -/
def Vector3.subVectors [Sub α] (a b : Vector3 α) : Vector3 α :=
  ⟨a.x - b.x, a.y - b.y, a.z - b.z⟩

/-- Method `Vector3.add(v)`. -/
def Vector3.add [Add α] (a v : Vector3 α) : Vector3 α :=
  ⟨a.x + v.x, a.y + v.y, a.z + v.z⟩

/-- Method `Vector3.cross(v)`. -/
def Vector3.cross [Mul α] [Sub α] (a b : Vector3 α) : Vector3 α :=
  ⟨a.y * b.z - a.z * b.y, a.z * b.x - a.x * b.z, a.x * b.y - a.y * b.x⟩

/-- Method `Vector3.length()`, with `Math.sqrt` a parameter. -/
def Vector3.length [Mul α] [Add α] (sqrt : α → α) (v : Vector3 α) : α :=
  sqrt (v.x * v.x + v.y * v.y + v.z * v.z)

/-- Method `Vector3.normalize()`: `divideScalar(this.length() || 1)`, where
`divideScalar(s)` is `multiplyScalar(1 / s)`. -/
def Vector3.normalize [LinearOrderedField α] (sqrt : α → α) (v : Vector3 α) : Vector3 α :=
  let l := v.length sqrt
  let s := if l = 0 then 1 else l
  ⟨v.x * (1 / s), v.y * (1 / s), v.z * (1 / s)⟩

/-- The part of a `THREE.BufferGeometry` the generation pass touches: the
`position` attribute, the triangle index, and the optional `normal` and `color`
attributes (`none` when the attribute has not been set). -/
structure BufferGeometry (α : Type) where
  position : List (Vector3 α)
  index : List (Nat × Nat × Nat)
  normal : Option (List (Vector3 α))
  color : Option (List α)

/-- Modelled from the spec: the planar grid "of `(segments+1) × (segments+1)`
points spanning a square of side `size`" is built by the external
`THREE.PlaneGeometry(width, height, widthSegments, heightSegments)`, whose
source is not part of the repository.  Vertices lie in the local XY plane
(`z = 0`), row by row from the top (`y = height/2`) down, with normal
`(0, 0, 1)`; every cell `a b / d c` gives the two triangles `(a, b, d)` and
`(b, c, d)`. -/
def PlaneGeometry [Field α] (width height : α) (widthSegments heightSegments : Nat) :
    BufferGeometry α :=
  let width_half := width / 2
  let height_half := height / 2
  let gridX := widthSegments
  let gridY := heightSegments
  let gridX1 := gridX + 1
  let gridY1 := gridY + 1
  let segment_width := width / (gridX : α)
  let segment_height := height / (gridY : α)
  let vertices : List (Vector3 α) :=
    forLoop gridY1 (fun iy vs =>
      let y := (iy : α) * segment_height - height_half
      forLoop gridX1 (fun ix vs =>
        let x := (ix : α) * segment_width - width_half
        vs ++ [⟨x, -y, 0⟩]) vs) []
  let normals : List (Vector3 α) :=
    forLoop gridY1 (fun _ ns => forLoop gridX1 (fun _ ns => ns ++ [⟨0, 0, 1⟩]) ns) []
  let indices : List (Nat × Nat × Nat) :=
    forLoop gridY (fun iy ts =>
      forLoop gridX (fun ix ts =>
        let a := ix + gridX1 * iy
        let b := ix + gridX1 * (iy + 1)
        let c := (ix + 1) + gridX1 * (iy + 1)
        let d := (ix + 1) + gridX1 * iy
        ts ++ [(a, b, d), (b, c, d)]) ts) []
  { position := vertices, index := indices, normal := some normals, color := none }

/-- One iteration of the indexed-triangle loop of `computeVertexNormals()`: the
unnormalised face normal `(pC - pB) × (pA - pB)` of triangle `t = (vA, vB, vC)`
is added to the normals of its three corners (all three read before the
writes). -/
def addFaceNormal [Ring α] (position : List (Vector3 α)) (ns : List (Vector3 α))
    (t : Nat × Nat × Nat) : List (Vector3 α) :=
  let vA := t.1
  let vB := t.2.1
  let vC := t.2.2
  let pA := fromBufferAttribute position vA
  let pB := fromBufferAttribute position vB
  let pC := fromBufferAttribute position vC
  let cb := (Vector3.subVectors pC pB).cross (Vector3.subVectors pA pB)
  let nA := fromBufferAttribute ns vA
  let nB := fromBufferAttribute ns vB
  let nC := fromBufferAttribute ns vC
  let ns := setXYZ ns vA (nA.add cb)
  let ns := setXYZ ns vB (nB.add cb)
  setXYZ ns vC (nC.add cb)

/-- Modelled from the spec: "recompute each vertex's normal as the area-weighted
average of the normals of all triangular faces incident to it, using the final
displaced positions" is the external `BufferGeometry.computeVertexNormals()`,
whose source is not part of the repository.  The normal attribute is created
(or reset) with zeros, every indexed triangle adds its unnormalised face normal
to its three corners, and `normalizeNormals()` then normalises every entry. -/
def computeVertexNormals [LinearOrderedField α] (sqrt : α → α) (g : BufferGeometry α) :
    BufferGeometry α :=
  let zeroed : List (Vector3 α) :=
    match g.normal with
    | none => List.replicate g.position.length ⟨0, 0, 0⟩
    | some n => forLoop n.length (fun i ns => setXYZ ns i ⟨0, 0, 0⟩) n
  let summed : List (Vector3 α) := g.index.foldl (addFaceNormal g.position) zeroed
  let normalized : List (Vector3 α) :=
    forLoop summed.length (fun i ns =>
      setXYZ ns i ((fromBufferAttribute ns i).normalize sqrt)) summed
  { g with normal := some normalized }

/-! ## Terrain generation (main.js lines 102-136) -/

/-- The object bound to `noise` seen through `typeof noise.noise2D === 'function'`
and `typeof noise.noise === 'function'`: each member is either a function or
absent (or not a function). -/
structure NoiseService (α : Type) where
  noise2D : Option (α → α → α)
  noise : Option (α → α → α)

/-- The wrapper `noise2` (main.js lines 103-107); `none` is a falsy `noise`. -/
def noise2 [Zero α] (noise : Option (NoiseService α)) (x y : α) : α :=
  match noise with
  | none => 0
  | some n =>
    match n.noise2D with
    | some f => f x y
    | none =>
      match n.noise with
      | some f => f x y
      | none => 0

/-- The height assignment loop (main.js lines 109-114) over the `position`
attribute, for the noise wrapper `noise2`. -/
def heightLoop [Field α] (noise2 : α → α → α) (position : List (Vector3 α)) :
    List (Vector3 α) :=
  forLoop position.length (fun i p =>
    let x := getX p i / 44
    let y := getY p i / 44
    let h := noise2 x y * 12 + noise2 (x * 2) (y * 2) * 5
    setZ p i h) position

/-- The colour `c` computed by one iteration of the classification loop
(main.js lines 124-133) from the height `h`, the normal component `ny` and the
iteration index `i`; `sin` is `Math.sin`. -/
def vertexColor [LinearOrderedField α] (sin : α → α) (h ny : α) (i : Nat) : Color α :=
  if h > 12 then
    snowColor
  else if ny < 0.7 ∨ h > 7 then
    rockColor
  else
    let v := 0.9 + 0.1 * sin (h * 0.5 + (i : α) * 0.001)
    Color.multiplyScalar grassColor v

/-- The vertex classification loop (main.js lines 118-135): the flat array
`colors`, three numbers pushed per vertex. -/
def classifyLoop [LinearOrderedField α] (sin : α → α)
    (positions normals : List (Vector3 α)) : List α :=
  forLoop positions.length (fun i colors =>
    let h := getZ positions i
    let ny := getY normals i
    let c := vertexColor sin h ny i
    colors ++ [c.r, c.g, c.b]) []

/-- The colour of vertex `i` in a flat colour array of item size 3, as
`Float32BufferAttribute(colors, 3)` exposes it. -/
def colorAt [Zero α] (colors : List α) (i : Nat) : Color α :=
  ⟨colors.getD (3 * i) 0, colors.getD (3 * i + 1) 0, colors.getD (3 * i + 2) 0⟩

/-- The whole generation pass (main.js lines 109-136) on a geometry: height
assignment, `computeVertexNormals()`, classification, and
`setAttribute('color', ...)`. -/
def generate [LinearOrderedField α] (sqrt sin : α → α) (noise : Option (NoiseService α))
    (geometry : BufferGeometry α) : BufferGeometry α :=
  let g1 : BufferGeometry α :=
    { geometry with position := heightLoop (noise2 noise) geometry.position }
  let g2 := computeVertexNormals sqrt g1
  let colors := classifyLoop sin g2.position (g2.normal.getD [])
  { g2 with color := some colors }

/-- The height array after generation. -/
def heights [Zero α] (g : BufferGeometry α) : List α := g.position.map (fun v => v.z)

/-- The vertex written by one iteration of the height loop: planar coordinates
kept, `z` replaced by the two-octave sum as the loop computes it. -/
def withHeight [Field α] (noise2 : α → α → α) (v : Vector3 α) : Vector3 α :=
  { v with z := noise2 (v.x / 44) (v.y / 44) * 12 + noise2 (v.x / 44 * 2) (v.y / 44 * 2) * 5 }

/-- The number of entries of the normal attribute that `computeVertexNormals()`
works on: the existing attribute's count, or the position count when it has to
create the attribute. -/
def normalCount (g : BufferGeometry α) : Nat :=
  match g.normal with
  | none => g.position.length
  | some n => n.length

/-! ## Water shader (shaders/waterShader.js) -/

/-- The scalar uniforms of the water material. -/
structure WaterUniforms (α : Type) where
  uTime : α
  uOpacity : α
  uWaveHeight : α
  uWaveSpeed : α

/-- The default uniform values (waterShader.js lines 3-11). -/
def defaultUniforms [DivisionRing α] : WaterUniforms α :=
  { uTime := 0, uOpacity := 0.75, uWaveHeight := 0.15, uWaveSpeed := 1.2 }

/-- Layer `wave1` of the vertex shader (line 25). -/
def wave1 [Field α] (sin : α → α) (u : WaterUniforms α) (position : Vector3 α) : α :=
  sin (position.x * 0.8 + u.uTime * u.uWaveSpeed) * 0.1

/-- Layer `wave2` of the vertex shader (line 26). -/
def wave2 [Field α] (cos : α → α) (u : WaterUniforms α) (position : Vector3 α) : α :=
  cos (position.y * 0.6 + u.uTime * u.uWaveSpeed * 0.7) * 0.08

/-- Layer `wave3` of the vertex shader (line 27). -/
def wave3 [Field α] (sin : α → α) (u : WaterUniforms α) (position : Vector3 α) : α :=
  sin ((position.x + position.y) * 0.4 + u.uTime * u.uWaveSpeed * 1.3) * 0.06

/-- The varying `vWave` (line 29). -/
def vWave [Field α] (sin cos : α → α) (u : WaterUniforms α) (position : Vector3 α) : α :=
  wave1 sin u position + wave2 cos u position + wave3 sin u position

/-- The amount added to `p.z` by the vertex shader (line 31). -/
def displacement [Field α] (sin cos : α → α) (u : WaterUniforms α) (position : Vector3 α) : α :=
  vWave sin cos u position * u.uWaveHeight

/-- The displaced vertex `p` of the vertex shader (lines 30-31). -/
def displaced [Field α] (sin cos : α → α) (u : WaterUniforms α) (position : Vector3 α) :
    Vector3 α :=
  { position with z := position.z + displacement sin cos u position }

/-- The factor `caustic1` of the fragment shader (line 49); `vUv = (ux, uy)`. -/
def caustic1 [Field α] (sin : α → α) (u : WaterUniforms α) (ux : α) : α :=
  sin (ux * 25.0 + u.uTime * 2.0) * 0.5 + 0.5

/-- The factor `caustic2` of the fragment shader (line 50). -/
def caustic2 [Field α] (cos : α → α) (u : WaterUniforms α) (uy : α) : α :=
  cos (uy * 18.0 - u.uTime * 1.5) * 0.5 + 0.5

/-- The factor `caustic3` of the fragment shader (line 51). -/
def caustic3 [Field α] (sin : α → α) (u : WaterUniforms α) (ux uy : α) : α :=
  sin ((ux + uy) * 12.0 + u.uTime * 1.8) * 0.5 + 0.5

/-- The blended value `caustic` of the fragment shader (line 54). -/
def caustic [Field α] (sin cos : α → α) (u : WaterUniforms α) (ux uy : α) : α :=
  caustic1 sin u ux * 0.4 + caustic2 cos u uy * 0.3 + caustic3 sin u ux uy * 0.3

/-- The alpha component of `gl_FragColor` (line 66). -/
def fragAlpha [Field α] (sin cos : α → α) (u : WaterUniforms α) (ux uy : α) : α :=
  u.uOpacity + caustic sin cos u ux uy * 0.1

/-- A noise stub sloping steeply along the second coordinate. -/
def slopeNoise [LinearOrderedField α] : Option (NoiseService α) :=
  some ⟨none, some (fun _ b => -(8 / 3) * b)⟩

/-- The uniforms with `uTime` advanced to `t` by the animation driver. -/
def atTime (u : WaterUniforms α) (t : α) : WaterUniforms α := { u with uTime := t }

/-- A noise stub with one value for negative second coordinate and another
otherwise (a cliff along the line `y = 0`). -/
def stepNoise [LinearOrderedField α] : Option (NoiseService α) :=
  some ⟨none, some (fun _ b => if b < 0 then 4 / 51 else -(4 / 51))⟩

/-! ## Keyboard navigation (main.js lines 344-366) -/

/-- The object `keyState`: its own properties in insertion order, each with
its boolean value. -/
abbrev KeyState := List (String × Bool)

/-- The initial `keyState` literal (main.js line 345). -/
def initialKeyState : KeyState :=
  [("w", false), ("a", false), ("s", false), ("d", false), ("q", false), ("e", false),
   ("ArrowUp", false), ("ArrowDown", false), ("ArrowLeft", false), ("ArrowRight", false)]

/-- Test `keyState.hasOwnProperty(k)`. -/
def hasOwnProperty (ks : KeyState) (k : String) : Bool := ks.any (fun p => p.1 == k)

/-- Assignment `keyState[k] = v` to a property the object owns: the entry is
overwritten in place (the listeners assign only under `hasOwnProperty`). -/
def assign (ks : KeyState) (k : String) (v : Bool) : KeyState :=
  ks.map (fun p => if p.1 == k then (p.1, v) else p)

/-- The truth value of the read `keyState.k` inside a condition: a missing
property reads as `undefined`, which is falsy. -/
def flag (ks : KeyState) (k : String) : Bool := (ks.lookup k).getD false

/-- Method `e.key.toLowerCase()`, on the ASCII letters `A`-`Z`. -/
def toLowerCase (key : String) : String := key.toLower

/-- The first `keydown` listener (main.js line 346). -/
def onKeyDown (key : String) (ks : KeyState) : KeyState :=
  let k := toLowerCase key
  if hasOwnProperty ks k then assign ks k true else ks

/-- The `keyup` listener (main.js line 347). -/
def onKeyUp (key : String) (ks : KeyState) : KeyState :=
  let k := toLowerCase key
  if hasOwnProperty ks k then assign ks k false else ks

/-- The state the key listeners and `handleKeyboard` act on: `keyState`,
`camera.position`, `controls.target` and `controls.autoRotate`. -/
structure Scene (α : Type) where
  keyState : KeyState
  cameraPosition : Vector3 α
  controlsTarget : Vector3 α
  autoRotate : Bool

/-- The second `keydown` listener: preset views and the auto-orbit toggle
(main.js lines 359-366), its six `if` statements in order. -/
def onPresetKey [Field α] (key : String) (s : Scene α) : Scene α :=
  let s := if key == "1" then
    { s with cameraPosition := ⟨0, 30, 60⟩, controlsTarget := ⟨0, 12, -10⟩ } else s
  let s := if key == "2" then
    { s with cameraPosition := ⟨-40, 35, -30⟩, controlsTarget := ⟨-30, 15, -45⟩ } else s
  let s := if key == "3" then
    { s with cameraPosition := ⟨35, 32, -12⟩, controlsTarget := ⟨0, 12, -20⟩ } else s
  let s := if key == "4" then
    { s with cameraPosition := ⟨0, 45, 0⟩, controlsTarget := ⟨0, 12, -10⟩ } else s
  let s := if key == "5" then
    { s with cameraPosition := ⟨-20, 22, 20⟩, controlsTarget := ⟨0, 12, -10⟩ } else s
  if toLowerCase key == "r" then { s with autoRotate := !s.autoRotate } else s

/-- A keyboard event delivered to `window`, with its `e.key`. -/
inductive KeyEvent where
  | keydown (key : String)
  | keyup (key : String)
deriving DecidableEq, Repr

/-- Dispatch of one keyboard event to the registered listeners, in registration
order. -/
def dispatch [Field α] (e : KeyEvent) (s : Scene α) : Scene α :=
  match e with
  | .keydown key => onPresetKey key { s with keyState := onKeyDown key s.keyState }
  | .keyup key => { s with keyState := onKeyUp key s.keyState }

/-- A sequence of keyboard events, dispatched in order. -/
def dispatchAll [Field α] (es : List KeyEvent) (s : Scene α) : Scene α :=
  es.foldl (fun s e => dispatch e s) s

/-- The scene before any keyboard event: the initial `keyState`, the camera at
`(0, 25, 40)` (line 21), the target at `(0, 12, -10)` (line 91), no auto-rotation
(line 90). -/
def initialScene [Field α] : Scene α :=
  { keyState := initialKeyState
    cameraPosition := ⟨0, 25, 40⟩
    controlsTarget := ⟨0, 12, -10⟩
    autoRotate := false }

/-- The function `handleKeyboard(dt)` (main.js lines 348-356) on
`camera.position`. -/
def handleKeyboard [Field α] (ks : KeyState) (dt : α) (position : Vector3 α) : Vector3 α :=
  let move := 14 * dt
  let p := position
  let p := if flag ks "w" || flag ks "arrowup" then { p with z := p.z - move } else p
  let p := if flag ks "s" || flag ks "arrowdown" then { p with z := p.z + move } else p
  let p := if flag ks "a" || flag ks "arrowleft" then { p with x := p.x - move } else p
  let p := if flag ks "d" || flag ks "arrowright" then { p with x := p.x + move } else p
  let p := if flag ks "q" then { p with y := p.y + move * 0.6 } else p
  if flag ks "e" then { p with y := p.y - move * 0.6 } else p

/-- The shape every reachable `keyState` has: the ten initial properties, the
four arrow entries still `false`. -/
def KeyShape (ks : KeyState) : Prop :=
  ∃ w a s d q e : Bool, ks =
    [("w", w), ("a", a), ("s", s), ("d", d), ("q", q), ("e", e),
     ("ArrowUp", false), ("ArrowDown", false), ("ArrowLeft", false), ("ArrowRight", false)]

/-! ## Loop lemmas -/

theorem forLoop_zero {σ : Type} (body : Nat → σ → σ) (s : σ) : forLoop 0 body s = s := rfl

theorem forLoop_succ {σ : Type} (n : Nat) (body : Nat → σ → σ) (s : σ) :
    forLoop (n + 1) body s = body n (forLoop n body s) := by
  simp [forLoop, List.range_succ, List.foldl_append]

theorem mapLoop_getElem? {β : Type} (G : Nat → β → β) (body : Nat → List β → List β)
    (hbody : ∀ i l j, (body i l)[j]? = if i = j then l[j]?.map (G i) else l[j]?)
    (l : List β) (k j : Nat) :
    (forLoop k body l)[j]? = if j < k then l[j]?.map (G j) else l[j]? := by
  induction k generalizing j with
  | zero => simp [forLoop_zero]
  | succ k ih =>
    rw [forLoop_succ, hbody]
    by_cases hjk : k = j
    · subst hjk
      simp [ih]
    · have : j < k + 1 ↔ j < k := by omega
      simp [hjk, this, ih]

theorem mapLoop_eq_map {β : Type} (G : β → β) (body : Nat → List β → List β)
    (hbody : ∀ i l j, (body i l)[j]? = if i = j then l[j]?.map G else l[j]?)
    (l : List β) : forLoop l.length body l = l.map G := by
  apply List.ext_getElem?
  intro j
  rw [mapLoop_getElem? (fun _ => G) body hbody]
  by_cases h : j < l.length
  · simp [h]
  · simp [h, List.getElem?_eq_none (Nat.le_of_not_lt h)]

theorem set_getD_getElem? {β : Type} (G : β → β) (d : β) (l : List β) (i j : Nat) :
    (l.set i (G (l.getD i d)))[j]? = if i = j then l[j]?.map G else l[j]? := by
  rw [List.getElem?_set]
  by_cases hij : i = j
  · subst hij
    by_cases hlt : i < l.length
    · simp [hlt, List.getD_eq_getElem?_getD]
    · simp [hlt, List.getElem?_eq_none (Nat.le_of_not_lt hlt)]
  · simp [hij]

theorem heightLoop_eq_map [Field α] (noise2 : α → α → α) (p : List (Vector3 α)) :
    heightLoop noise2 p = p.map (withHeight noise2) := by
  unfold heightLoop
  apply mapLoop_eq_map
  intro i l j
  exact set_getD_getElem? (withHeight noise2) ⟨0, 0, 0⟩ l i j

theorem zeroLoop_eq [Zero α] (n : List (Vector3 α)) :
    forLoop n.length (fun i ns => setXYZ ns i ⟨0, 0, 0⟩) n =
      List.replicate n.length ⟨0, 0, 0⟩ := by
  rw [mapLoop_eq_map (fun _ => (⟨0, 0, 0⟩ : Vector3 α))]
  · exact List.map_const n _
  · intro i l j
    exact set_getD_getElem? (fun _ => (⟨0, 0, 0⟩ : Vector3 α)) ⟨0, 0, 0⟩ l i j

theorem normalizeLoop_eq [LinearOrderedField α] (sqrt : α → α) (n : List (Vector3 α)) :
    forLoop n.length (fun i ns =>
      setXYZ ns i ((fromBufferAttribute ns i).normalize sqrt)) n =
      n.map (Vector3.normalize sqrt) := by
  apply mapLoop_eq_map
  intro i l j
  exact set_getD_getElem? (Vector3.normalize sqrt) ⟨0, 0, 0⟩ l i j

theorem colorAt_append_left [Zero α] (cs ds : List α) (i : Nat) (h : 3 * i + 2 < cs.length) :
    colorAt (cs ++ ds) i = colorAt cs i := by
  simp only [colorAt, List.getD_eq_getElem?_getD]
  rw [List.getElem?_append_left (by omega), List.getElem?_append_left (by omega),
    List.getElem?_append_left h]

theorem colorAt_append_right [Zero α] (cs : List α) (c : Color α) (k : Nat)
    (h : cs.length = 3 * k) : colorAt (cs ++ [c.r, c.g, c.b]) k = c := by
  simp only [colorAt, List.getD_eq_getElem?_getD]
  rw [List.getElem?_append_right (by omega), List.getElem?_append_right (by omega),
    List.getElem?_append_right (by omega)]
  have h0 : 3 * k - cs.length = 0 := by omega
  have h1 : 3 * k + 1 - cs.length = 1 := by omega
  have h2 : 3 * k + 2 - cs.length = 2 := by omega
  simp [h0, h1, h2]

theorem pushLoop_spec [Zero α] (c : Nat → Color α) (k : Nat) :
    (forLoop k (fun i colors => colors ++ [(c i).r, (c i).g, (c i).b]) []).length = 3 * k ∧
    ∀ i, i < k →
      colorAt (forLoop k (fun i colors => colors ++ [(c i).r, (c i).g, (c i).b]) []) i = c i := by
  induction k with
  | zero => simp [forLoop_zero]
  | succ k ih =>
    rw [forLoop_succ]
    generalize forLoop k _ ([] : List α) = q at ih ⊢
    obtain ⟨hlen, hcol⟩ := ih
    refine ⟨by simp [hlen]; omega, fun i hi => ?_⟩
    by_cases hik : i = k
    · subst hik
      exact colorAt_append_right q (c i) i hlen
    · have hlt : i < k := by omega
      rw [colorAt_append_left q _ i (by omega)]
      exact hcol i hlt

theorem classifyLoop_colorAt [LinearOrderedField α] (sin : α → α)
    (positions normals : List (Vector3 α)) (i : Nat) (hi : i < positions.length) :
    colorAt (classifyLoop sin positions normals) i =
      vertexColor sin (getZ positions i) (getY normals i) i :=
  (pushLoop_spec (fun i => vertexColor sin (getZ positions i) (getY normals i) i)
    positions.length).2 i hi

theorem classifyLoop_length [LinearOrderedField α] (sin : α → α)
    (positions normals : List (Vector3 α)) :
    (classifyLoop sin positions normals).length = 3 * positions.length :=
  (pushLoop_spec (fun i => vertexColor sin (getZ positions i) (getY normals i) i)
    positions.length).1

/-! ## Normal recomputation and the generation pass -/

theorem addFaceNormal_length [Ring α] (position ns : List (Vector3 α)) (t : Nat × Nat × Nat) :
    (addFaceNormal position ns t).length = ns.length := by
  simp [addFaceNormal, setXYZ]

theorem foldl_addFaceNormal_length [Ring α] (position : List (Vector3 α))
    (index : List (Nat × Nat × Nat)) (ns : List (Vector3 α)) :
    (index.foldl (addFaceNormal position) ns).length = ns.length := by
  induction index generalizing ns with
  | nil => rfl
  | cons t ts ih => rw [List.foldl_cons, ih, addFaceNormal_length]

theorem computeVertexNormals_normal [LinearOrderedField α] (sqrt : α → α)
    (g : BufferGeometry α) :
    (computeVertexNormals sqrt g).normal =
      some ((g.index.foldl (addFaceNormal g.position)
        (List.replicate (normalCount g) ⟨0, 0, 0⟩)).map (Vector3.normalize sqrt)) := by
  unfold computeVertexNormals normalCount
  cases h : g.normal with
  | none => simp [normalizeLoop_eq]
  | some n => simp [normalizeLoop_eq, zeroLoop_eq]

theorem getY_eq_zero_of_forall [Zero α] (ns : List (Vector3 α))
    (h : ∀ v ∈ ns, v.y = 0) (i : Nat) : getY ns i = 0 := by
  unfold getY
  rw [List.getD_eq_getElem?_getD]
  cases hi : ns[i]? with
  | none => rfl
  | some v => exact h v (List.getElem?_mem hi)

theorem addFaceNormal_flat [Ring α] (position ns : List (Vector3 α)) (t : Nat × Nat × Nat)
    (hp : ∀ j, getZ position j = 0) (hn : ∀ v ∈ ns, v.y = 0) :
    ∀ v ∈ addFaceNormal position ns t, v.y = 0 := by
  intro v hv
  have hy := getY_eq_zero_of_forall ns hn
  unfold addFaceNormal setXYZ at hv
  rcases List.mem_or_eq_of_mem_set hv with hv | rfl
  · rcases List.mem_or_eq_of_mem_set hv with hv | rfl
    · rcases List.mem_or_eq_of_mem_set hv with hv | rfl
      · exact hn v hv
      · simp [Vector3.add, Vector3.cross, Vector3.subVectors, fromBufferAttribute, hp, hy]
    · simp [Vector3.add, Vector3.cross, Vector3.subVectors, fromBufferAttribute, hp, hy]
  · simp [Vector3.add, Vector3.cross, Vector3.subVectors, fromBufferAttribute, hp, hy]

theorem foldl_addFaceNormal_flat [Ring α] (position : List (Vector3 α))
    (index : List (Nat × Nat × Nat)) (ns : List (Vector3 α))
    (hp : ∀ j, getZ position j = 0) (hn : ∀ v ∈ ns, v.y = 0) :
    ∀ v ∈ index.foldl (addFaceNormal position) ns, v.y = 0 := by
  induction index generalizing ns with
  | nil => exact hn
  | cons t ts ih =>
    rw [List.foldl_cons]
    exact ih _ (addFaceNormal_flat position ns t hp hn)

theorem computeVertexNormals_flat [LinearOrderedField α] (sqrt : α → α)
    (g : BufferGeometry α) (hp : ∀ j, getZ g.position j = 0) (i : Nat) :
    getY ((computeVertexNormals sqrt g).normal.getD []) i = 0 := by
  rw [computeVertexNormals_normal]
  apply getY_eq_zero_of_forall
  intro v hv
  simp only [Option.getD_some, List.mem_map] at hv
  obtain ⟨w, hw, rfl⟩ := hv
  have hw0 : w.y = 0 :=
    foldl_addFaceNormal_flat g.position g.index _ hp
      (fun u hu => by rw [List.eq_of_mem_replicate hu]) w hw
  simp [Vector3.normalize, hw0]

theorem generate_position [LinearOrderedField α] (sqrt sin : α → α)
    (noise : Option (NoiseService α)) (g : BufferGeometry α) :
    (generate sqrt sin noise g).position = g.position.map (withHeight (noise2 noise)) := by
  simp [generate, computeVertexNormals, heightLoop_eq_map]

theorem generate_index [LinearOrderedField α] (sqrt sin : α → α)
    (noise : Option (NoiseService α)) (g : BufferGeometry α) :
    (generate sqrt sin noise g).index = g.index := rfl

theorem generate_normal [LinearOrderedField α] (sqrt sin : α → α)
    (noise : Option (NoiseService α)) (g : BufferGeometry α) :
    (generate sqrt sin noise g).normal =
      some ((g.index.foldl (addFaceNormal (g.position.map (withHeight (noise2 noise))))
        (List.replicate (normalCount g) ⟨0, 0, 0⟩)).map (Vector3.normalize sqrt)) := by
  have hc : normalCount { g with position := heightLoop (noise2 noise) g.position } =
      normalCount g := by
    unfold normalCount
    cases g.normal <;> simp [heightLoop_eq_map]
  show (computeVertexNormals sqrt
    { g with position := heightLoop (noise2 noise) g.position }).normal = _
  rw [computeVertexNormals_normal, hc, heightLoop_eq_map]

theorem generate_color [LinearOrderedField α] (sqrt sin : α → α)
    (noise : Option (NoiseService α)) (g : BufferGeometry α) :
    (generate sqrt sin noise g).color =
      some (classifyLoop sin (generate sqrt sin noise g).position
        ((generate sqrt sin noise g).normal.getD [])) := rfl

theorem generate_colorAt [LinearOrderedField α] (sqrt sin : α → α)
    (noise : Option (NoiseService α)) (g : BufferGeometry α) (i : Nat)
    (hi : i < (generate sqrt sin noise g).position.length) :
    colorAt ((generate sqrt sin noise g).color.getD []) i =
      vertexColor sin (getZ (generate sqrt sin noise g).position i)
        (getY ((generate sqrt sin noise g).normal.getD []) i) i := by
  rw [generate_color, Option.getD_some]
  exact classifyLoop_colorAt sin _ _ i hi

theorem withHeight_idem [Field α] (f : α → α → α) (v : Vector3 α) :
    withHeight f (withHeight f v) = withHeight f v := rfl

theorem normalCount_generate [LinearOrderedField α] (sqrt sin : α → α)
    (noise : Option (NoiseService α)) (g : BufferGeometry α) :
    normalCount (generate sqrt sin noise g) = normalCount g := by
  unfold normalCount
  rw [generate_normal]
  simp only [List.length_map, foldl_addFaceNormal_length, List.length_replicate]
  rfl

theorem generate_eq [LinearOrderedField α] (sqrt sin : α → α)
    (noise : Option (NoiseService α)) (g₁ g₂ : BufferGeometry α)
    (hp : g₁.position.map (withHeight (noise2 noise)) =
      g₂.position.map (withHeight (noise2 noise)))
    (hidx : g₁.index = g₂.index) (hn : normalCount g₁ = normalCount g₂) :
    generate sqrt sin noise g₁ = generate sqrt sin noise g₂ := by
  have h1 := generate_position sqrt sin noise g₁
  have h2 := generate_position sqrt sin noise g₂
  have n1 := generate_normal sqrt sin noise g₁
  have n2 := generate_normal sqrt sin noise g₂
  have c1 := generate_color sqrt sin noise g₁
  have c2 := generate_color sqrt sin noise g₂
  have i1 := generate_index sqrt sin noise g₁
  have i2 := generate_index sqrt sin noise g₂
  rw [h1, n1] at c1
  rw [h2, n2] at c2
  generalize generate sqrt sin noise g₁ = r₁ at *
  generalize generate sqrt sin noise g₂ = r₂ at *
  cases r₁; cases r₂
  simp only at h1 h2 n1 n2 c1 c2 i1 i2
  subst h1 h2 n1 n2 c1 c2 i1 i2
  simp [hp, hidx, hn]

theorem generate_idem [LinearOrderedField α] (sqrt sin : α → α)
    (noise : Option (NoiseService α)) (g : BufferGeometry α) :
    generate sqrt sin noise (generate sqrt sin noise g) = generate sqrt sin noise g := by
  apply generate_eq
  · rw [generate_position, List.map_map]
    rfl
  · rfl
  · exact normalCount_generate sqrt sin noise g

/-! ## Concrete grids and colour constants -/

theorem planeGeometry_3x3 :
    (PlaneGeometry (2 : ℚ) 2 2 2).position =
      [⟨-1, 1, 0⟩, ⟨0, 1, 0⟩, ⟨1, 1, 0⟩, ⟨-1, 0, 0⟩, ⟨0, 0, 0⟩, ⟨1, 0, 0⟩,
       ⟨-1, -1, 0⟩, ⟨0, -1, 0⟩, ⟨1, -1, 0⟩] := by
  simp [PlaneGeometry, forLoop, List.range_succ]
  norm_num

theorem planeGeometry_2x2 [LinearOrderedField α] :
    (PlaneGeometry (2 : α) 2 1 1) =
      { position := [⟨-1, 1, 0⟩, ⟨1, 1, 0⟩, ⟨-1, -1, 0⟩, ⟨1, -1, 0⟩]
        index := [(0, 2, 1), (2, 3, 1)]
        normal := some [⟨0, 0, 1⟩, ⟨0, 0, 1⟩, ⟨0, 0, 1⟩, ⟨0, 0, 1⟩]
        color := none } := by
  simp [PlaneGeometry, forLoop, List.range_succ]
  norm_num

theorem slope_position [LinearOrderedField α] (sqrt sin : α → α) :
    (generate sqrt sin slopeNoise (PlaneGeometry (2 : α) 2 1 1)).position =
      [⟨-1, 1, -(4 / 3)⟩, ⟨1, 1, -(4 / 3)⟩, ⟨-1, -1, 4 / 3⟩, ⟨1, -1, 4 / 3⟩] := by
  rw [generate_position, planeGeometry_2x2]
  simp [withHeight, noise2, slopeNoise]
  norm_num

theorem slope_summed [LinearOrderedField α] :
    ([(0, 2, 1), (2, 3, 1)] : List (Nat × Nat × Nat)).foldl
      (addFaceNormal [⟨-1, 1, -(4 / 3)⟩, ⟨1, 1, -(4 / 3)⟩, ⟨-1, -1, 4 / 3⟩, ⟨1, -1, 4 / 3⟩])
      (List.replicate 4 (⟨0, 0, 0⟩ : Vector3 α)) =
      [⟨0, 16 / 3, 4⟩, ⟨0, 32 / 3, 8⟩, ⟨0, 32 / 3, 8⟩, ⟨0, 16 / 3, 4⟩] := by
  simp [addFaceNormal, setXYZ, fromBufferAttribute, getX, getY, getZ, Vector3.add,
    Vector3.cross, Vector3.subVectors, List.replicate]
  norm_num

theorem rockColor_eq [DivisionRing α] :
    (rockColor : Color α) = ⟨140 / 255, 140 / 255, 140 / 255⟩ := by
  have hr : (0x8c8c8c >>> 16 &&& 255 : Nat) = 140 := by decide
  have hg : (0x8c8c8c >>> 8 &&& 255 : Nat) = 140 := by decide
  have hb : (0x8c8c8c &&& 255 : Nat) = 140 := by decide
  simp only [rockColor, Color.setHex, hr, hg, hb, Nat.cast_ofNat]

theorem grassColor_eq [DivisionRing α] :
    (grassColor : Color α) = ⟨104 / 255, 179 / 255, 107 / 255⟩ := by
  have hr : (0x68b36b >>> 16 &&& 255 : Nat) = 104 := by decide
  have hg : (0x68b36b >>> 8 &&& 255 : Nat) = 179 := by decide
  have hb : (0x68b36b &&& 255 : Nat) = 107 := by decide
  simp only [grassColor, Color.setHex, hr, hg, hb, Nat.cast_ofNat]

theorem snowColor_eq [DivisionRing α] :
    (snowColor : Color α) = ⟨242 / 255, 246 / 255, 250 / 255⟩ := by
  have hr : (0xf2f6fa >>> 16 &&& 255 : Nat) = 242 := by decide
  have hg : (0xf2f6fa >>> 8 &&& 255 : Nat) = 246 := by decide
  have hb : (0xf2f6fa &&& 255 : Nat) = 250 := by decide
  simp only [snowColor, Color.setHex, hr, hg, hb, Nat.cast_ofNat]

theorem rockColor_ne_scaled_grass [LinearOrderedField α] (v : α) :
    (rockColor : Color α) ≠ Color.multiplyScalar grassColor v := by
  rw [rockColor_eq, grassColor_eq]
  intro h
  simp only [Color.multiplyScalar, Color.mk.injEq] at h
  obtain ⟨h1, h2, -⟩ := h
  have e1 : (104 : α) * v = 140 := by field_simp at h1; linarith
  have e2 : (179 : α) * v = 140 := by field_simp at h2; linarith
  have : (75 : α) * v = 0 := by linarith
  have hv : v = 0 := by
    rcases mul_eq_zero.mp this with h | h
    · norm_num at h
    · exact h
  rw [hv] at e1
  norm_num at e1

theorem heightLoop_zero_noise [LinearOrderedField α] (f : α → α → α) (hf : ∀ x y, f x y = 0)
    (position : List (Vector3 α)) (j : Nat) : getZ (heightLoop f position) j = 0 := by
  rw [heightLoop_eq_map, getZ, List.getD_eq_getElem?_getD, List.getElem?_map]
  cases position[j]? <;> simp [withHeight, hf]

theorem generate_height_const (sqrt sin : ℚ → ℚ) (c : ℚ) (i : Nat) (hi : i < 9) :
    getZ (generate sqrt sin (some ⟨none, some (fun _ _ => c)⟩)
      (PlaneGeometry (2 : ℚ) 2 2 2)).position i = c * 12 + c * 5 := by
  rw [generate_position, planeGeometry_3x3]
  interval_cases i <;> simp [getZ, withHeight, noise2]

theorem generate_length_3x3 (sqrt sin : ℚ → ℚ) (noise : Option (NoiseService ℚ)) :
    (generate sqrt sin noise (PlaneGeometry (2 : ℚ) 2 2 2)).position.length = 9 := by
  rw [generate_position, planeGeometry_3x3]; rfl

theorem slope_normalY :
    getY ((generate Real.sqrt Real.sin slopeNoise (PlaneGeometry (2 : ℝ) 2 1 1)).normal.getD [])
      0 = 4 / 5 := by
  have hs : Real.sqrt (0 * 0 + 16 / 3 * (16 / 3) + 4 * 4) = 20 / 3 := by
    rw [show (0 * 0 + 16 / 3 * (16 / 3) + 4 * 4 : ℝ) = (20 / 3) ^ 2 by norm_num]
    exact Real.sqrt_sq (by norm_num)
  have hp := slope_position Real.sqrt Real.sin
  rw [generate_position] at hp
  rw [generate_normal, hp]
  have hc : normalCount (PlaneGeometry (2 : ℝ) 2 1 1) = 4 := by
    rw [planeGeometry_2x2]; rfl
  have hi : (PlaneGeometry (2 : ℝ) 2 1 1).index = [(0, 2, 1), (2, 3, 1)] := by
    rw [planeGeometry_2x2]
  rw [hc, hi, slope_summed]
  simp only [Option.getD_some, List.map_cons, getY, List.getD_cons_zero, Vector3.normalize,
    Vector3.length, hs]
  norm_num

/-! ## Terrain claims -/

/-- C1: for every noise function and every vertex of the grid, the height
assignment loop leaves the planar coordinates unchanged and sets the vertex's
`z` to `f(x/44, y/44) * 12 + f(x/22, y/22) * 5`. -/
theorem height_assignment [LinearOrderedField α] (f : α → α → α)
    (position : List (Vector3 α)) (i : Nat) (hi : i < position.length) :
    (heightLoop f position).length = position.length ∧
    getX (heightLoop f position) i = getX position i ∧
    getY (heightLoop f position) i = getY position i ∧
    getZ (heightLoop f position) i =
      f (getX position i / 44) (getY position i / 44) * 12 +
        f (getX position i / 22) (getY position i / 22) * 5 := by
  have h2 : ∀ a : α, a / 44 * 2 = a / 22 := fun a => by ring
  simp [heightLoop_eq_map, getX, getY, getZ, List.getD_eq_getElem?_getD, hi, withHeight, h2]

theorem height_assignment_witness :
    2 < (PlaneGeometry (2 : ℚ) 2 2 2).position.length ∧
    getX (PlaneGeometry (2 : ℚ) 2 2 2).position 2 = 1 ∧
    getY (PlaneGeometry (2 : ℚ) 2 2 2).position 2 = 1 ∧
    getZ (heightLoop (fun a b => a + b) (PlaneGeometry (2 : ℚ) 2 2 2).position) 2 =
      ((1 + 1) / 44) * 12 + ((2 + 2) / 44) * 5 := by
  have hlen : 2 < (PlaneGeometry (2 : ℚ) 2 2 2).position.length := by
    rw [planeGeometry_3x3]; decide
  have h := height_assignment (fun a b : ℚ => a + b) (PlaneGeometry (2 : ℚ) 2 2 2).position 2 hlen
  have hx : getX (PlaneGeometry (2 : ℚ) 2 2 2).position 2 = 1 := by
    rw [planeGeometry_3x3]; rfl
  have hy : getY (PlaneGeometry (2 : ℚ) 2 2 2).position 2 = 1 := by
    rw [planeGeometry_3x3]; rfl
  refine ⟨hlen, hx, hy, ?_⟩
  rw [h.2.2.2, hx, hy]
  norm_num

/-- C2: with a noise service whose wrapper returns 0 everywhere, generation
gives every vertex height 0, the normal component the classification reads is
0, and every vertex gets the rock colour, which is no scaled grass tint. -/
theorem zero_noise_classifies_rock [LinearOrderedField α] (sqrt sin : α → α)
    (noise : Option (NoiseService α)) (hnoise : ∀ x y, noise2 noise x y = 0)
    (g : BufferGeometry α) (i : Nat) (hi : i < (generate sqrt sin noise g).position.length) :
    getZ (generate sqrt sin noise g).position i = 0 ∧
    getY ((generate sqrt sin noise g).normal.getD []) i = 0 ∧
    colorAt ((generate sqrt sin noise g).color.getD []) i = rockColor ∧
    ∀ v : α, colorAt ((generate sqrt sin noise g).color.getD []) i ≠
      Color.multiplyScalar grassColor v := by
  have hz : ∀ j, getZ (generate sqrt sin noise g).position j = 0 :=
    fun j => heightLoop_zero_noise (noise2 noise) hnoise g.position j
  have hy : getY ((generate sqrt sin noise g).normal.getD []) i = 0 :=
    computeVertexNormals_flat sqrt
      { g with position := heightLoop (noise2 noise) g.position } hz i
  have hc : colorAt ((generate sqrt sin noise g).color.getD []) i = rockColor := by
    rw [generate_colorAt sqrt sin noise g i hi, hz i, hy]
    have h1 : ¬ (0 : α) > 12 := by norm_num
    have h2 : (0 : α) < 0.7 := by norm_num
    simp [vertexColor, h1, h2]
  refine ⟨hz i, hy, hc, fun v => ?_⟩
  rw [hc]
  exact rockColor_ne_scaled_grass v

theorem zero_noise_classifies_rock_witness :
    4 < (generate (fun x => x) (fun _ => 0) (some ⟨none, some (fun _ _ => 0)⟩)
      (PlaneGeometry (2 : ℚ) 2 2 2)).position.length ∧
    colorAt ((generate (fun x => x) (fun _ => 0) (some ⟨none, some (fun _ _ => 0)⟩)
      (PlaneGeometry (2 : ℚ) 2 2 2)).color.getD []) 4 = rockColor := by
  have hlen : 4 < (generate (fun x => x) (fun _ => 0) (some ⟨none, some (fun _ _ => 0)⟩)
      (PlaneGeometry (2 : ℚ) 2 2 2)).position.length := by
    rw [generate_position, planeGeometry_3x3]; decide
  exact ⟨hlen, (zero_noise_classifies_rock (fun x => x) (fun _ => 0)
    (some ⟨none, some (fun _ _ => 0)⟩) (fun _ _ => rfl) (PlaneGeometry (2 : ℚ) 2 2 2) 4 hlen).2.2.1⟩

/-- C3: the wrapper `noise2` is total; it returns `noise.noise2D(x, y)` when
`noise2D` is a function, otherwise `noise.noise(x, y)` when `noise` is a
function, otherwise 0 (also for a falsy `noise`), and in the fall-back cases
the height loop leaves every vertex at height 0. -/
theorem noise2_fallback [LinearOrderedField α] (f : α → α → α) (g : Option (α → α → α))
    (x y : α) (position : List (Vector3 α)) :
    noise2 (some ⟨some f, g⟩) x y = f x y ∧
    noise2 (some ⟨none, some f⟩) x y = f x y ∧
    noise2 (some ⟨none, none⟩) x y = 0 ∧
    noise2 (none : Option (NoiseService α)) x y = 0 ∧
    (heightLoop (noise2 (some ⟨none, none⟩)) position).map (fun v => v.z) =
      List.replicate position.length 0 ∧
    (heightLoop (noise2 (none : Option (NoiseService α))) position).map (fun v => v.z) =
      List.replicate position.length 0 := by
  refine ⟨rfl, rfl, rfl, rfl, ?_, ?_⟩
  · rw [heightLoop_eq_map, List.map_map]
    have hfun : ((fun v : Vector3 α => v.z) ∘ withHeight (noise2 (some ⟨none, none⟩))) =
        fun _ => (0 : α) := by
      funext v
      simp [withHeight, noise2]
    rw [hfun]
    exact List.map_const position 0
  · rw [heightLoop_eq_map, List.map_map]
    have hfun : ((fun v : Vector3 α => v.z) ∘
        withHeight (noise2 (none : Option (NoiseService α)))) = fun _ => (0 : α) := by
      funext v
      simp [withHeight, noise2]
    rw [hfun]
    exact List.map_const position 0

/-- C4: after generation, a vertex whose height is greater than 12 has exactly
the snow colour; the branch does not look at the normal or at the index. -/
theorem snow_above_12 [LinearOrderedField α] (sqrt sin : α → α)
    (noise : Option (NoiseService α)) (g : BufferGeometry α) (i : Nat)
    (hi : i < (generate sqrt sin noise g).position.length)
    (hh : getZ (generate sqrt sin noise g).position i > 12) :
    colorAt ((generate sqrt sin noise g).color.getD []) i = snowColor ∧
    ∀ (ny : α) (j : Nat),
      vertexColor sin (getZ (generate sqrt sin noise g).position i) ny j = snowColor := by
  refine ⟨?_, fun ny j => ?_⟩
  · rw [generate_colorAt sqrt sin noise g i hi]
    simp [vertexColor, hh]
  · simp [vertexColor, hh]

theorem snow_above_12_witness :
    0 < (generate (fun x => x) (fun _ => 0) (some ⟨none, some (fun _ _ => 1)⟩)
      (PlaneGeometry (2 : ℚ) 2 2 2)).position.length ∧
    getZ (generate (fun x => x) (fun _ => 0) (some ⟨none, some (fun _ _ => 1)⟩)
      (PlaneGeometry (2 : ℚ) 2 2 2)).position 0 > 12 ∧
    colorAt ((generate (fun x => x) (fun _ => 0) (some ⟨none, some (fun _ _ => 1)⟩)
      (PlaneGeometry (2 : ℚ) 2 2 2)).color.getD []) 0 = snowColor := by
  have hlen : 0 < (generate (fun x => x) (fun _ => 0) (some ⟨none, some (fun _ _ => 1)⟩)
      (PlaneGeometry (2 : ℚ) 2 2 2)).position.length := by
    rw [generate_length_3x3]; decide
  have hh : getZ (generate (fun x => x) (fun _ => 0) (some ⟨none, some (fun _ _ => 1)⟩)
      (PlaneGeometry (2 : ℚ) 2 2 2)).position 0 > 12 := by
    rw [generate_height_const _ _ 1 0 (by decide)]; norm_num
  exact ⟨hlen, hh, (snow_above_12 _ _ _ _ 0 hlen hh).1⟩

/-- C5: after generation, a vertex whose height is at most 12 and whose normal
component read by the classification pass is below 0.7, or whose height is
above 7, has exactly the rock colour. -/
theorem rock_steep_or_high [LinearOrderedField α] (sqrt sin : α → α)
    (noise : Option (NoiseService α)) (g : BufferGeometry α) (i : Nat)
    (hi : i < (generate sqrt sin noise g).position.length)
    (hh : getZ (generate sqrt sin noise g).position i ≤ 12)
    (hr : getY ((generate sqrt sin noise g).normal.getD []) i < 0.7 ∨
      getZ (generate sqrt sin noise g).position i > 7) :
    colorAt ((generate sqrt sin noise g).color.getD []) i = rockColor := by
  rw [generate_colorAt sqrt sin noise g i hi]
  have h1 : ¬ getZ (generate sqrt sin noise g).position i > 12 := not_lt.mpr hh
  simp only [vertexColor, h1, hr, if_false, if_true]

theorem rock_steep_or_high_witness :
    0 < (generate (fun x => x) (fun _ => 0) (some ⟨none, some (fun _ _ => 1 / 2)⟩)
      (PlaneGeometry (2 : ℚ) 2 2 2)).position.length ∧
    getZ (generate (fun x => x) (fun _ => 0) (some ⟨none, some (fun _ _ => 1 / 2)⟩)
      (PlaneGeometry (2 : ℚ) 2 2 2)).position 0 ≤ 12 ∧
    getZ (generate (fun x => x) (fun _ => 0) (some ⟨none, some (fun _ _ => 1 / 2)⟩)
      (PlaneGeometry (2 : ℚ) 2 2 2)).position 0 > 7 ∧
    colorAt ((generate (fun x => x) (fun _ => 0) (some ⟨none, some (fun _ _ => 1 / 2)⟩)
      (PlaneGeometry (2 : ℚ) 2 2 2)).color.getD []) 0 = rockColor := by
  have hlen : 0 < (generate (fun x => x) (fun _ => 0) (some ⟨none, some (fun _ _ => 1 / 2)⟩)
      (PlaneGeometry (2 : ℚ) 2 2 2)).position.length := by
    rw [generate_length_3x3]; decide
  have hz := generate_height_const (fun x => x) (fun _ => 0) (1 / 2) 0 (by decide)
  have hh : getZ (generate (fun x => x) (fun _ => 0) (some ⟨none, some (fun _ _ => 1 / 2)⟩)
      (PlaneGeometry (2 : ℚ) 2 2 2)).position 0 ≤ 12 := by
    rw [hz]; norm_num
  have h7 : getZ (generate (fun x => x) (fun _ => 0) (some ⟨none, some (fun _ _ => 1 / 2)⟩)
      (PlaneGeometry (2 : ℚ) 2 2 2)).position 0 > 7 := by
    rw [hz]; norm_num
  exact ⟨hlen, hh, h7, rock_steep_or_high _ _ _ _ 0 hlen hh (Or.inr h7)⟩

/-- C6: after generation, a vertex with height at most 7 whose normal component
read by the classification pass is at least 0.7 has the grass colour scaled by
`v = 0.9 + 0.1 * sin(0.5 * h + 0.001 * i)`, and that factor lies in
`[0.8, 1.0]` for every real height and every index. -/
theorem grass_tint (sqrt : ℝ → ℝ) (noise : Option (NoiseService ℝ)) (g : BufferGeometry ℝ)
    (i : Nat) (hi : i < (generate sqrt Real.sin noise g).position.length)
    (hh : getZ (generate sqrt Real.sin noise g).position i ≤ 7)
    (hn : 0.7 ≤ getY ((generate sqrt Real.sin noise g).normal.getD []) i) :
    colorAt ((generate sqrt Real.sin noise g).color.getD []) i =
      Color.multiplyScalar grassColor
        (0.9 + 0.1 * Real.sin (0.5 * getZ (generate sqrt Real.sin noise g).position i +
          0.001 * (i : ℝ))) ∧
    ∀ (h : ℝ) (j : Nat),
      0.8 ≤ 0.9 + 0.1 * Real.sin (0.5 * h + 0.001 * (j : ℝ)) ∧
      0.9 + 0.1 * Real.sin (0.5 * h + 0.001 * (j : ℝ)) ≤ 1.0 := by
  constructor
  · rw [generate_colorAt sqrt Real.sin noise g i hi]
    have h1 : ¬ getZ (generate sqrt Real.sin noise g).position i > 12 := by
      have : (7 : ℝ) < 12 := by norm_num
      exact not_lt.mpr (le_trans hh this.le)
    have h2 : ¬ (getY ((generate sqrt Real.sin noise g).normal.getD []) i < 0.7 ∨
        getZ (generate sqrt Real.sin noise g).position i > 7) := by
      rintro (h | h)
      · exact absurd hn (not_le.mpr h)
      · exact absurd hh (not_le.mpr h)
    simp only [vertexColor, h1, h2, if_false]
    rw [mul_comm (getZ _ _) (0.5 : ℝ), mul_comm (i : ℝ) (0.001 : ℝ)]
  · intro h j
    have hlo := Real.neg_one_le_sin (0.5 * h + 0.001 * (j : ℝ))
    have hhi := Real.sin_le_one (0.5 * h + 0.001 * (j : ℝ))
    constructor <;> norm_num <;> linarith

theorem grass_tint_witness :
    0 < (generate Real.sqrt Real.sin slopeNoise (PlaneGeometry (2 : ℝ) 2 1 1)).position.length ∧
    getZ (generate Real.sqrt Real.sin slopeNoise (PlaneGeometry (2 : ℝ) 2 1 1)).position 0 ≤ 7 ∧
    0.7 ≤ getY ((generate Real.sqrt Real.sin slopeNoise
      (PlaneGeometry (2 : ℝ) 2 1 1)).normal.getD []) 0 ∧
    colorAt ((generate Real.sqrt Real.sin slopeNoise
      (PlaneGeometry (2 : ℝ) 2 1 1)).color.getD []) 0 =
      Color.multiplyScalar grassColor
        (0.9 + 0.1 * Real.sin (0.5 * getZ (generate Real.sqrt Real.sin slopeNoise
          (PlaneGeometry (2 : ℝ) 2 1 1)).position 0 + 0.001 * ((0 : Nat) : ℝ))) := by
  have hlen : 0 < (generate Real.sqrt Real.sin slopeNoise
      (PlaneGeometry (2 : ℝ) 2 1 1)).position.length := by
    rw [slope_position]; decide
  have hh : getZ (generate Real.sqrt Real.sin slopeNoise
      (PlaneGeometry (2 : ℝ) 2 1 1)).position 0 ≤ 7 := by
    rw [slope_position]
    simp only [getZ, List.getD_cons_zero]
    norm_num
  have hn : 0.7 ≤ getY ((generate Real.sqrt Real.sin slopeNoise
      (PlaneGeometry (2 : ℝ) 2 1 1)).normal.getD []) 0 := by
    rw [slope_normalY]; norm_num
  exact ⟨hlen, hh, hn, (grass_tint Real.sqrt slopeNoise (PlaneGeometry (2 : ℝ) 2 1 1) 0
    hlen hh hn).1⟩

/-! ## Water shader claims -/

/-- C7 (as stated, refuted): with the default uniforms at time 0 the
displacement at `(0, 0)` is not 0.15. -/
theorem origin_displacement_ne_claimed :
    displacement Real.sin Real.cos (defaultUniforms : WaterUniforms ℝ) ⟨0, 0, 0⟩ ≠ 0.15 := by
  simp [displacement, vWave, wave1, wave2, wave3, defaultUniforms]
  norm_num

/-- C7 (amended): at time 0 with wave speed 1.2 and wave height 0.15 the
displacement added at `(0, 0)` is
`(sin 0 * 0.1 + cos 0 * 0.08 + sin 0 * 0.06) * 0.15 = 0.08 * 0.15 = 0.012`. -/
theorem displacement_origin (z opacity : ℝ) :
    displacement Real.sin Real.cos
      { uTime := 0, uOpacity := opacity, uWaveHeight := 0.15, uWaveSpeed := 1.2 } ⟨0, 0, z⟩ =
      (Real.sin 0 * 0.1 + Real.cos 0 * 0.08 + Real.sin 0 * 0.06) * 0.15 ∧
    displacement Real.sin Real.cos
      { uTime := 0, uOpacity := opacity, uWaveHeight := 0.15, uWaveSpeed := 1.2 } ⟨0, 0, z⟩ =
      0.012 ∧
    displacement Real.sin Real.cos (defaultUniforms : WaterUniforms ℝ) ⟨0, 0, z⟩ = 0.012 := by
  refine ⟨?_, ?_, ?_⟩
  · simp [displacement, vWave, wave1, wave2, wave3]
  · simp [displacement, vWave, wave1, wave2, wave3]
    norm_num
  · simp [displacement, vWave, wave1, wave2, wave3, defaultUniforms]
    norm_num

/-- C8 (as stated, refuted): at wave speed 1 the layer `wave2` differs between
time 0 and time `0 + 2π/1`. -/
theorem wave2_not_periodic :
    wave2 Real.cos
      (atTime { uTime := 0, uOpacity := 0.75, uWaveHeight := 0.15, uWaveSpeed := 1 }
        (0 + 2 * Real.pi / 1)) ⟨0, 0, 0⟩ ≠
    wave2 Real.cos
      (atTime { uTime := 0, uOpacity := 0.75, uWaveHeight := 0.15, uWaveSpeed := 1 } 0)
        ⟨0, 0, 0⟩ := by
  have hneg : Real.cos (2 * Real.pi * 0.7) < 0 := by
    apply Real.cos_neg_of_pi_div_two_lt_of_lt
    · nlinarith [Real.pi_pos]
    · nlinarith [Real.pi_pos]
  simp only [wave2, atTime]
  intro h
  have hone : Real.cos (2 * Real.pi * 0.7) = 1 := by
    have := h
    norm_num at this
    norm_num
    linarith
  linarith

/-- C8 (amended): for wave speed `s > 0`, `wave1` repeats after `2π/s`, `wave2`
after `2π/(0.7 s)`, `wave3` after `2π/(1.3 s)`, and the whole displacement
repeats after `20π/s`. -/
theorem wave_periods (u : WaterUniforms ℝ) (hs : u.uWaveSpeed > 0) (p : Vector3 ℝ) (t : ℝ) :
    wave1 Real.sin (atTime u (t + 2 * Real.pi / u.uWaveSpeed)) p =
      wave1 Real.sin (atTime u t) p ∧
    wave2 Real.cos (atTime u (t + 2 * Real.pi / (0.7 * u.uWaveSpeed))) p =
      wave2 Real.cos (atTime u t) p ∧
    wave3 Real.sin (atTime u (t + 2 * Real.pi / (1.3 * u.uWaveSpeed))) p =
      wave3 Real.sin (atTime u t) p ∧
    displacement Real.sin Real.cos (atTime u (t + 20 * Real.pi / u.uWaveSpeed)) p =
      displacement Real.sin Real.cos (atTime u t) p := by
  have hs0 : u.uWaveSpeed ≠ 0 := ne_of_gt hs
  refine ⟨?_, ?_, ?_, ?_⟩
  · simp only [wave1, atTime]
    have e : p.x * 0.8 + (t + 2 * Real.pi / u.uWaveSpeed) * u.uWaveSpeed =
        p.x * 0.8 + t * u.uWaveSpeed + 2 * Real.pi := by
      field_simp; ring
    rw [e, Real.sin_add_two_pi]
  · simp only [wave2, atTime]
    have e : p.y * 0.6 + (t + 2 * Real.pi / (0.7 * u.uWaveSpeed)) * u.uWaveSpeed * 0.7 =
        p.y * 0.6 + t * u.uWaveSpeed * 0.7 + 2 * Real.pi := by
      field_simp; ring
    rw [e, Real.cos_add_two_pi]
  · simp only [wave3, atTime]
    have e : (p.x + p.y) * 0.4 + (t + 2 * Real.pi / (1.3 * u.uWaveSpeed)) * u.uWaveSpeed * 1.3 =
        (p.x + p.y) * 0.4 + t * u.uWaveSpeed * 1.3 + 2 * Real.pi := by
      field_simp; ring
    rw [e, Real.sin_add_two_pi]
  · simp only [displacement, vWave, wave1, wave2, wave3, atTime]
    have e1 : p.x * 0.8 + (t + 20 * Real.pi / u.uWaveSpeed) * u.uWaveSpeed =
        p.x * 0.8 + t * u.uWaveSpeed + (10 : ℕ) * (2 * Real.pi) := by
      field_simp; ring
    have e2 : p.y * 0.6 + (t + 20 * Real.pi / u.uWaveSpeed) * u.uWaveSpeed * 0.7 =
        p.y * 0.6 + t * u.uWaveSpeed * 0.7 + (7 : ℕ) * (2 * Real.pi) := by
      field_simp; ring
    have e3 : (p.x + p.y) * 0.4 + (t + 20 * Real.pi / u.uWaveSpeed) * u.uWaveSpeed * 1.3 =
        (p.x + p.y) * 0.4 + t * u.uWaveSpeed * 1.3 + (13 : ℕ) * (2 * Real.pi) := by
      field_simp; ring
    rw [e1, e2, e3, Real.sin_add_nat_mul_two_pi, Real.cos_add_nat_mul_two_pi,
      Real.sin_add_nat_mul_two_pi]

theorem wave_periods_witness :
    (defaultUniforms : WaterUniforms ℝ).uWaveSpeed > 0 ∧
    wave1 Real.sin (atTime defaultUniforms (0 + 2 * Real.pi / defaultUniforms.uWaveSpeed))
      ⟨0, 0, 0⟩ = wave1 Real.sin (atTime defaultUniforms 0) ⟨0, 0, 0⟩ := by
  have hs : (defaultUniforms : WaterUniforms ℝ).uWaveSpeed > 0 := by
    simp only [defaultUniforms]; norm_num
  exact ⟨hs, (wave_periods defaultUniforms hs ⟨0, 0, 0⟩ 0).1⟩

/-- C9: for every uv coordinate, time and base opacity, the blended caustic
value of the fragment shader lies in `[0, 1]` and the output alpha lies in
`[uOpacity, uOpacity + 0.1]`. -/
theorem caustic_alpha_bounds (u : WaterUniforms ℝ) (ux uy : ℝ) :
    0 ≤ caustic Real.sin Real.cos u ux uy ∧ caustic Real.sin Real.cos u ux uy ≤ 1 ∧
    u.uOpacity ≤ fragAlpha Real.sin Real.cos u ux uy ∧
    fragAlpha Real.sin Real.cos u ux uy ≤ u.uOpacity + 0.1 := by
  have a1 := Real.neg_one_le_sin (ux * 25.0 + u.uTime * 2.0)
  have b1 := Real.sin_le_one (ux * 25.0 + u.uTime * 2.0)
  have a2 := Real.neg_one_le_cos (uy * 18.0 - u.uTime * 1.5)
  have b2 := Real.cos_le_one (uy * 18.0 - u.uTime * 1.5)
  have a3 := Real.neg_one_le_sin ((ux + uy) * 12.0 + u.uTime * 1.8)
  have b3 := Real.sin_le_one ((ux + uy) * 12.0 + u.uTime * 1.8)
  simp only [fragAlpha, caustic, caustic1, caustic2, caustic3]
  refine ⟨?_, ?_, ?_, ?_⟩ <;> norm_num <;> linarith

/-! ## Determinism -/

/-- C10: a second run of the generation pass on the geometry the first run
left behind (same noise function, same grid) reproduces the same heights, the
same normals and the same colours. -/
theorem generation_deterministic [LinearOrderedField α] (sqrt sin : α → α)
    (noise : Option (NoiseService α)) (g : BufferGeometry α) :
    heights (generate sqrt sin noise (generate sqrt sin noise g)) =
      heights (generate sqrt sin noise g) ∧
    (generate sqrt sin noise (generate sqrt sin noise g)).normal =
      (generate sqrt sin noise g).normal ∧
    (generate sqrt sin noise (generate sqrt sin noise g)).color =
      (generate sqrt sin noise g).color := by
  rw [generate_idem]
  exact ⟨rfl, rfl, rfl⟩

/-! ## Dependence of a vertex's height and colour -/

theorem planeGeometry_2x3 [LinearOrderedField α] :
    (PlaneGeometry (2 : α) 2 1 2) =
      { position := [⟨-1, 1, 0⟩, ⟨1, 1, 0⟩, ⟨-1, 0, 0⟩, ⟨1, 0, 0⟩, ⟨-1, -1, 0⟩, ⟨1, -1, 0⟩]
        index := [(0, 2, 1), (2, 3, 1), (2, 4, 3), (4, 5, 3)]
        normal := some [⟨0, 0, 1⟩, ⟨0, 0, 1⟩, ⟨0, 0, 1⟩, ⟨0, 0, 1⟩, ⟨0, 0, 1⟩, ⟨0, 0, 1⟩]
        color := none } := by
  simp [PlaneGeometry, forLoop, List.range_succ]
  norm_num

theorem planeGeometry_4x2 [LinearOrderedField α] :
    (PlaneGeometry (6 : α) 2 3 1) =
      { position := [⟨-3, 1, 0⟩, ⟨-1, 1, 0⟩, ⟨1, 1, 0⟩, ⟨3, 1, 0⟩,
          ⟨-3, -1, 0⟩, ⟨-1, -1, 0⟩, ⟨1, -1, 0⟩, ⟨3, -1, 0⟩]
        index := [(0, 4, 1), (4, 5, 1), (1, 5, 2), (5, 6, 2), (2, 6, 3), (6, 7, 3)]
        normal := some [⟨0, 0, 1⟩, ⟨0, 0, 1⟩, ⟨0, 0, 1⟩, ⟨0, 0, 1⟩,
          ⟨0, 0, 1⟩, ⟨0, 0, 1⟩, ⟨0, 0, 1⟩, ⟨0, 0, 1⟩]
        color := none } := by
  simp [PlaneGeometry, forLoop, List.range_succ]
  norm_num

theorem step_position_2x2 [LinearOrderedField α] (sqrt sin : α → α) :
    (generate sqrt sin stepNoise (PlaneGeometry (2 : α) 2 1 1)).position =
      [⟨-1, 1, -(4 / 3)⟩, ⟨1, 1, -(4 / 3)⟩, ⟨-1, -1, 4 / 3⟩, ⟨1, -1, 4 / 3⟩] := by
  rw [generate_position, planeGeometry_2x2]
  simp [withHeight, noise2, stepNoise]
  norm_num

theorem step_position_2x3 [LinearOrderedField α] (sqrt sin : α → α) :
    (generate sqrt sin stepNoise (PlaneGeometry (2 : α) 2 1 2)).position =
      [⟨-1, 1, -(4 / 3)⟩, ⟨1, 1, -(4 / 3)⟩, ⟨-1, 0, -(4 / 3)⟩, ⟨1, 0, -(4 / 3)⟩,
        ⟨-1, -1, 4 / 3⟩, ⟨1, -1, 4 / 3⟩] := by
  rw [generate_position, planeGeometry_2x3]
  simp [withHeight, noise2, stepNoise]
  norm_num

theorem slope_position_4x2 [LinearOrderedField α] (sqrt sin : α → α) :
    (generate sqrt sin slopeNoise (PlaneGeometry (6 : α) 2 3 1)).position =
      [⟨-3, 1, -(4 / 3)⟩, ⟨-1, 1, -(4 / 3)⟩, ⟨1, 1, -(4 / 3)⟩, ⟨3, 1, -(4 / 3)⟩,
        ⟨-3, -1, 4 / 3⟩, ⟨-1, -1, 4 / 3⟩, ⟨1, -1, 4 / 3⟩, ⟨3, -1, 4 / 3⟩] := by
  rw [generate_position, planeGeometry_4x2]
  simp [withHeight, noise2, slopeNoise]
  norm_num

theorem step_summed_2x3 [LinearOrderedField α] :
    getY (([(0, 2, 1), (2, 3, 1), (2, 4, 3), (4, 5, 3)] : List (Nat × Nat × Nat)).foldl
      (addFaceNormal [⟨-1, 1, -(4 / 3)⟩, ⟨1, 1, -(4 / 3)⟩, ⟨-1, 0, -(4 / 3)⟩,
        ⟨1, 0, -(4 / 3)⟩, ⟨-1, -1, 4 / 3⟩, ⟨1, -1, 4 / 3⟩])
      (List.replicate 6 (⟨0, 0, 0⟩ : Vector3 α))) 0 = 0 := by
  simp [addFaceNormal, setXYZ, fromBufferAttribute, getX, getY, getZ, Vector3.add,
    Vector3.cross, Vector3.subVectors, List.replicate]

theorem slope_summed_4x2 [LinearOrderedField α] :
    fromBufferAttribute
      (([(0, 4, 1), (4, 5, 1), (1, 5, 2), (5, 6, 2), (2, 6, 3), (6, 7, 3)] :
        List (Nat × Nat × Nat)).foldl
      (addFaceNormal [⟨-3, 1, -(4 / 3)⟩, ⟨-1, 1, -(4 / 3)⟩, ⟨1, 1, -(4 / 3)⟩, ⟨3, 1, -(4 / 3)⟩,
        ⟨-3, -1, 4 / 3⟩, ⟨-1, -1, 4 / 3⟩, ⟨1, -1, 4 / 3⟩, ⟨3, -1, 4 / 3⟩])
      (List.replicate 8 (⟨0, 0, 0⟩ : Vector3 α))) 1 = ⟨0, 16, 12⟩ := by
  simp [addFaceNormal, setXYZ, fromBufferAttribute, getX, getY, getZ, Vector3.add,
    Vector3.cross, Vector3.subVectors, List.replicate]
  norm_num

theorem getY_map_normalize [LinearOrderedField α] (sqrt : α → α) (l : List (Vector3 α))
    (i : Nat) (hi : i < l.length) :
    getY (l.map (Vector3.normalize sqrt)) i = ((fromBufferAttribute l i).normalize sqrt).y := by
  simp [getY, getX, getZ, fromBufferAttribute, List.getD_eq_getElem?_getD, List.getElem?_map,
    List.getElem?_eq_getElem hi]

theorem vertexColor_grass [LinearOrderedField α] (sin : α → α) (h ny : α) (i : Nat)
    (hh : h ≤ 7) (hn : 0.7 ≤ ny) :
    vertexColor sin h ny i =
      Color.multiplyScalar grassColor (0.9 + 0.1 * sin (h * 0.5 + (i : α) * 0.001)) := by
  have h1 : ¬ h > 12 := by
    have : (7 : α) < 12 := by norm_num
    exact not_lt.mpr (le_trans hh this.le)
  have h2 : ¬ (ny < 0.7 ∨ h > 7) := by
    rintro (h | h)
    · exact absurd hn (not_le.mpr h)
    · exact absurd hh (not_le.mpr h)
  simp only [vertexColor, h1, h2, if_false]

theorem vertexColor_rock [LinearOrderedField α] (sin : α → α) (h ny : α) (i : Nat)
    (hh : h ≤ 12) (hr : ny < 0.7 ∨ h > 7) : vertexColor sin h ny i = rockColor := by
  have h1 : ¬ h > 12 := not_lt.mpr hh
  simp only [vertexColor, h1, hr, if_false, if_true]

theorem grass_scale_injective [LinearOrderedField α] (v w : α)
    (h : Color.multiplyScalar (grassColor : Color α) v = Color.multiplyScalar grassColor w) :
    v = w := by
  rw [grassColor_eq] at h
  simp only [Color.multiplyScalar, Color.mk.injEq] at h
  have hr := h.1
  have hne : (104 / 255 : α) ≠ 0 := by norm_num
  exact mul_left_cancel₀ hne hr

theorem tilted_normalY (noise : Option (NoiseService ℝ))
    (hp : (generate Real.sqrt Real.sin noise (PlaneGeometry (2 : ℝ) 2 1 1)).position =
      [⟨-1, 1, -(4 / 3)⟩, ⟨1, 1, -(4 / 3)⟩, ⟨-1, -1, 4 / 3⟩, ⟨1, -1, 4 / 3⟩]) :
    getY ((generate Real.sqrt Real.sin noise (PlaneGeometry (2 : ℝ) 2 1 1)).normal.getD [])
      0 = 4 / 5 := by
  have hs : Real.sqrt (0 * 0 + 16 / 3 * (16 / 3) + 4 * 4) = 20 / 3 := by
    rw [show (0 * 0 + 16 / 3 * (16 / 3) + 4 * 4 : ℝ) = (20 / 3) ^ 2 by norm_num]
    exact Real.sqrt_sq (by norm_num)
  rw [generate_position] at hp
  rw [generate_normal, hp]
  have hc : normalCount (PlaneGeometry (2 : ℝ) 2 1 1) = 4 := by
    rw [planeGeometry_2x2]; rfl
  have hi : (PlaneGeometry (2 : ℝ) 2 1 1).index = [(0, 2, 1), (2, 3, 1)] := by
    rw [planeGeometry_2x2]
  rw [hc, hi, slope_summed]
  simp only [Option.getD_some, List.map_cons, getY, List.getD_cons_zero, Vector3.normalize,
    Vector3.length, hs]
  norm_num

theorem slope_normalY_4x2 :
    getY ((generate Real.sqrt Real.sin slopeNoise (PlaneGeometry (6 : ℝ) 2 3 1)).normal.getD [])
      1 = 4 / 5 := by
  have hs : Real.sqrt (0 * 0 + 16 * 16 + 12 * 12) = 20 := by
    rw [show (0 * 0 + 16 * 16 + 12 * 12 : ℝ) = 20 ^ 2 by norm_num]
    exact Real.sqrt_sq (by norm_num)
  have hp := slope_position_4x2 Real.sqrt Real.sin
  rw [generate_position] at hp
  rw [generate_normal, hp]
  have hc : normalCount (PlaneGeometry (6 : ℝ) 2 3 1) = 8 := by
    rw [planeGeometry_4x2]; rfl
  have hi : (PlaneGeometry (6 : ℝ) 2 3 1).index =
      [(0, 4, 1), (4, 5, 1), (1, 5, 2), (5, 6, 2), (2, 6, 3), (6, 7, 3)] := by
    rw [planeGeometry_4x2]
  rw [hc, hi, Option.getD_some, getY_map_normalize, slope_summed_4x2]
  · simp only [Vector3.normalize, Vector3.length, hs]
    norm_num
  · rw [foldl_addFaceNormal_length]; simp

theorem step_normalY_2x3 (sqrt sin : ℝ → ℝ) :
    getY ((generate sqrt sin stepNoise (PlaneGeometry (2 : ℝ) 2 1 2)).normal.getD []) 0 = 0 := by
  have hp := step_position_2x3 sqrt sin
  rw [generate_position] at hp
  rw [generate_normal, hp]
  have hc : normalCount (PlaneGeometry (2 : ℝ) 2 1 2) = 6 := by
    rw [planeGeometry_2x3]; rfl
  have hi : (PlaneGeometry (2 : ℝ) 2 1 2).index = [(0, 2, 1), (2, 3, 1), (2, 4, 3), (4, 5, 3)] := by
    rw [planeGeometry_2x3]
  rw [hc, hi, Option.getD_some, getY_map_normalize]
  · have h0 := step_summed_2x3 (α := ℝ)
    simp only [Vector3.normalize, fromBufferAttribute, h0, zero_mul]
  · rw [foldl_addFaceNormal_length]; simp

theorem height_eq_of_coordinates [Field α] (f : α → α → α) (position : List (Vector3 α))
    (i : Nat) (hi : i < position.length) :
    getZ (heightLoop f position) i =
      f (getX position i / 44) (getY position i / 44) * 12 +
        f (getX position i / 44 * 2) (getY position i / 44 * 2) * 5 := by
  simp [heightLoop_eq_map, getX, getY, getZ, List.getD_eq_getElem?_getD, hi, withHeight]

/-- C11 (as stated, refuted): vertices with the same local `(x, y)` get
different colours (a) at different iteration indices, with the same slope, and
(b) at the same index, with different neighbouring vertices. -/
theorem colour_not_only_coordinates :
    (getX (PlaneGeometry (2 : ℝ) 2 1 1).position 0 =
        getX (PlaneGeometry (6 : ℝ) 2 3 1).position 1 ∧
      getY (PlaneGeometry (2 : ℝ) 2 1 1).position 0 =
        getY (PlaneGeometry (6 : ℝ) 2 3 1).position 1 ∧
      colorAt ((generate Real.sqrt Real.sin slopeNoise
          (PlaneGeometry (2 : ℝ) 2 1 1)).color.getD []) 0 ≠
        colorAt ((generate Real.sqrt Real.sin slopeNoise
          (PlaneGeometry (6 : ℝ) 2 3 1)).color.getD []) 1) ∧
    (getX (PlaneGeometry (2 : ℝ) 2 1 1).position 0 =
        getX (PlaneGeometry (2 : ℝ) 2 1 2).position 0 ∧
      getY (PlaneGeometry (2 : ℝ) 2 1 1).position 0 =
        getY (PlaneGeometry (2 : ℝ) 2 1 2).position 0 ∧
      colorAt ((generate Real.sqrt Real.sin stepNoise
          (PlaneGeometry (2 : ℝ) 2 1 1)).color.getD []) 0 ≠
        colorAt ((generate Real.sqrt Real.sin stepNoise
          (PlaneGeometry (2 : ℝ) 2 1 2)).color.getD []) 0) := by
  refine ⟨⟨?_, ?_, ?_⟩, ⟨?_, ?_, ?_⟩⟩
  · rw [planeGeometry_2x2, planeGeometry_4x2]; rfl
  · rw [planeGeometry_2x2, planeGeometry_4x2]; rfl
  · have hzA : getZ (generate Real.sqrt Real.sin slopeNoise
        (PlaneGeometry (2 : ℝ) 2 1 1)).position 0 = -(4 / 3) := by
      rw [slope_position]; rfl
    have hzB : getZ (generate Real.sqrt Real.sin slopeNoise
        (PlaneGeometry (6 : ℝ) 2 3 1)).position 1 = -(4 / 3) := by
      rw [slope_position_4x2]; rfl
    have hA := generate_colorAt Real.sqrt Real.sin slopeNoise (PlaneGeometry (2 : ℝ) 2 1 1) 0
      (by rw [slope_position]; decide)
    have hB := generate_colorAt Real.sqrt Real.sin slopeNoise (PlaneGeometry (6 : ℝ) 2 3 1) 1
      (by rw [slope_position_4x2]; decide)
    rw [hzA, slope_normalY, vertexColor_grass _ _ _ _ (by norm_num) (by norm_num)] at hA
    rw [hzB, slope_normalY_4x2, vertexColor_grass _ _ _ _ (by norm_num) (by norm_num)] at hB
    rw [hA, hB]
    intro h
    have hv := grass_scale_injective _ _ h
    have hlt : Real.sin (-(4 / 3) * 0.5 + ((0 : Nat) : ℝ) * 0.001) <
        Real.sin (-(4 / 3) * 0.5 + ((1 : Nat) : ℝ) * 0.001) := by
      apply Real.sin_lt_sin_of_lt_of_le_pi_div_two
      · have := Real.pi_gt_three
        norm_num
        linarith
      · have := Real.pi_gt_three
        norm_num
        linarith
      · norm_num
    linarith
  · rw [planeGeometry_2x2, planeGeometry_2x3]; rfl
  · rw [planeGeometry_2x2, planeGeometry_2x3]; rfl
  · have hzA : getZ (generate Real.sqrt Real.sin stepNoise
        (PlaneGeometry (2 : ℝ) 2 1 1)).position 0 = -(4 / 3) := by
      rw [step_position_2x2]; rfl
    have hzB : getZ (generate Real.sqrt Real.sin stepNoise
        (PlaneGeometry (2 : ℝ) 2 1 2)).position 0 = -(4 / 3) := by
      rw [step_position_2x3]; rfl
    have hA := generate_colorAt Real.sqrt Real.sin stepNoise (PlaneGeometry (2 : ℝ) 2 1 1) 0
      (by rw [step_position_2x2]; decide)
    have hB := generate_colorAt Real.sqrt Real.sin stepNoise (PlaneGeometry (2 : ℝ) 2 1 2) 0
      (by rw [step_position_2x3]; decide)
    rw [hzA, tilted_normalY stepNoise (step_position_2x2 Real.sqrt Real.sin),
      vertexColor_grass _ _ _ _ (by norm_num) (by norm_num)] at hA
    rw [hzB, step_normalY_2x3, vertexColor_rock _ _ _ _ (by norm_num) (Or.inl (by norm_num))] at hB
    rw [hA, hB]
    exact fun h => rockColor_ne_scaled_grass _ h.symm

/-- C11 (amended): a vertex's height after generation depends only on its own
`(x, y)` and the noise function, whatever its index and the other vertices;
its colour is a function of that height, of the Y component of its recomputed
normal and of its index, and does not depend on the index in the snow and rock
branches. -/
theorem vertex_dependence [LinearOrderedField α] (sqrt sin : α → α)
    (noise : Option (NoiseService α)) (g₁ g₂ : BufferGeometry α) (i₁ i₂ : Nat)
    (h₁ : i₁ < g₁.position.length) (h₂ : i₂ < g₂.position.length)
    (hx : getX g₁.position i₁ = getX g₂.position i₂)
    (hy : getY g₁.position i₁ = getY g₂.position i₂) :
    getZ (generate sqrt sin noise g₁).position i₁ =
      getZ (generate sqrt sin noise g₂).position i₂ ∧
    (getY ((generate sqrt sin noise g₁).normal.getD []) i₁ =
        getY ((generate sqrt sin noise g₂).normal.getD []) i₂ →
      i₁ = i₂ →
      colorAt ((generate sqrt sin noise g₁).color.getD []) i₁ =
        colorAt ((generate sqrt sin noise g₂).color.getD []) i₂) ∧
    (getY ((generate sqrt sin noise g₁).normal.getD []) i₁ =
        getY ((generate sqrt sin noise g₂).normal.getD []) i₂ →
      (getZ (generate sqrt sin noise g₁).position i₁ > 12 ∨
        getY ((generate sqrt sin noise g₁).normal.getD []) i₁ < 0.7 ∨
        getZ (generate sqrt sin noise g₁).position i₁ > 7) →
      colorAt ((generate sqrt sin noise g₁).color.getD []) i₁ =
        colorAt ((generate sqrt sin noise g₂).color.getD []) i₂) := by
  have hz : getZ (generate sqrt sin noise g₁).position i₁ =
      getZ (generate sqrt sin noise g₂).position i₂ := by
    have e₁ := (height_eq_of_coordinates (noise2 noise) g₁.position i₁ h₁)
    have e₂ := (height_eq_of_coordinates (noise2 noise) g₂.position i₂ h₂)
    rw [generate_position, ← heightLoop_eq_map, e₁, generate_position, ← heightLoop_eq_map, e₂,
      hx, hy]
  have l₁ : i₁ < (generate sqrt sin noise g₁).position.length := by
    rw [generate_position]; simpa using h₁
  have l₂ : i₂ < (generate sqrt sin noise g₂).position.length := by
    rw [generate_position]; simpa using h₂
  refine ⟨hz, fun hn hi => ?_, fun hn hb => ?_⟩
  · rw [generate_colorAt _ _ _ _ _ l₁, generate_colorAt _ _ _ _ _ l₂, hz, hn, hi]
  · rw [generate_colorAt _ _ _ _ _ l₁, generate_colorAt _ _ _ _ _ l₂, ← hz, ← hn]
    by_cases h12 : getZ (generate sqrt sin noise g₁).position i₁ > 12
    · simp [vertexColor, h12]
    · have hr : getY ((generate sqrt sin noise g₁).normal.getD []) i₁ < 0.7 ∨
          getZ (generate sqrt sin noise g₁).position i₁ > 7 := by
        rcases hb with h | h | h
        · exact absurd h h12
        · exact Or.inl h
        · exact Or.inr h
      simp only [vertexColor, h12, hr, if_false, if_true]

theorem vertex_dependence_witness :
    2 < (PlaneGeometry (2 : ℚ) 2 2 2).position.length ∧
    1 < (PlaneGeometry (2 : ℚ) 2 1 1).position.length ∧
    getX (PlaneGeometry (2 : ℚ) 2 2 2).position 2 = getX (PlaneGeometry (2 : ℚ) 2 1 1).position 1 ∧
    getY (PlaneGeometry (2 : ℚ) 2 2 2).position 2 = getY (PlaneGeometry (2 : ℚ) 2 1 1).position 1 ∧
    getZ (generate (fun x => x) (fun _ => 0) (some ⟨none, some (fun a b => a + b)⟩)
        (PlaneGeometry (2 : ℚ) 2 2 2)).position 2 =
      getZ (generate (fun x => x) (fun _ => 0) (some ⟨none, some (fun a b => a + b)⟩)
        (PlaneGeometry (2 : ℚ) 2 1 1)).position 1 := by
  have h₁ : 2 < (PlaneGeometry (2 : ℚ) 2 2 2).position.length := by
    rw [planeGeometry_3x3]; decide
  have h₂ : 1 < (PlaneGeometry (2 : ℚ) 2 1 1).position.length := by
    rw [planeGeometry_2x2]; decide
  have hx : getX (PlaneGeometry (2 : ℚ) 2 2 2).position 2 =
      getX (PlaneGeometry (2 : ℚ) 2 1 1).position 1 := by
    rw [planeGeometry_3x3, planeGeometry_2x2]; rfl
  have hy : getY (PlaneGeometry (2 : ℚ) 2 2 2).position 2 =
      getY (PlaneGeometry (2 : ℚ) 2 1 1).position 1 := by
    rw [planeGeometry_3x3, planeGeometry_2x2]; rfl
  exact ⟨h₁, h₂, hx, hy, (vertex_dependence (fun x => x) (fun _ => 0)
    (some ⟨none, some (fun a b => a + b)⟩) _ _ 2 1 h₁ h₂ hx hy).1⟩

/-! ## Keyboard navigation claims -/

theorem toLowerCase_eq (key : String) :
    toLowerCase key = ⟨key.data.map Char.toLower⟩ := by
  unfold toLowerCase String.toLower
  exact String.map_eq Char.toLower key

theorem char_toLower_ne_A (c : Char) : Char.toLower c ≠ 'A' := by
  intro h
  unfold Char.toLower at h
  by_cases hc : c.toNat ≥ 65 ∧ c.toNat ≤ 90
  · simp only [hc, and_self, if_true] at h
    obtain ⟨h1, h2⟩ := hc
    generalize c.toNat = n at h h1 h2
    interval_cases n <;> exact absurd h (by decide)
  · simp only [hc, if_false] at h
    subst h
    exact hc (by decide)

theorem toLowerCase_ne_of_head (key t : String) (ht : t.data.head? = some 'A') :
    toLowerCase key ≠ t := by
  intro h
  rw [toLowerCase_eq] at h
  subst h
  simp only [List.head?_map] at ht
  cases hd : key.data.head? with
  | none => simp [hd] at ht
  | some c =>
    simp only [hd, Option.map_some', Option.some.injEq] at ht
    exact char_toLower_ne_A c ht

theorem toLowerCase_arrows :
    toLowerCase "ArrowUp" = "arrowup" ∧ toLowerCase "ArrowDown" = "arrowdown" ∧
    toLowerCase "ArrowLeft" = "arrowleft" ∧ toLowerCase "ArrowRight" = "arrowright" := by
  simp only [toLowerCase_eq]
  decide

theorem keyShape_initial : KeyShape initialKeyState :=
  ⟨false, false, false, false, false, false, rfl⟩

theorem keyShape_assign (ks : KeyState) (key : String) (v : Bool) (h : KeyShape ks) :
    KeyShape (assign ks (toLowerCase key) v) := by
  obtain ⟨w, a, s, d, q, e, rfl⟩ := h
  have h1 : ("ArrowUp" == toLowerCase key) = false :=
    beq_false_of_ne (fun h => toLowerCase_ne_of_head key "ArrowUp" rfl h.symm)
  have h2 : ("ArrowDown" == toLowerCase key) = false :=
    beq_false_of_ne (fun h => toLowerCase_ne_of_head key "ArrowDown" rfl h.symm)
  have h3 : ("ArrowLeft" == toLowerCase key) = false :=
    beq_false_of_ne (fun h => toLowerCase_ne_of_head key "ArrowLeft" rfl h.symm)
  have h4 : ("ArrowRight" == toLowerCase key) = false :=
    beq_false_of_ne (fun h => toLowerCase_ne_of_head key "ArrowRight" rfl h.symm)
  refine ⟨if "w" == toLowerCase key then v else w, if "a" == toLowerCase key then v else a,
    if "s" == toLowerCase key then v else s, if "d" == toLowerCase key then v else d,
    if "q" == toLowerCase key then v else q, if "e" == toLowerCase key then v else e, ?_⟩
  simp only [assign, List.map, h1, h2, h3, h4]
  congr 1 <;> [skip; congr 1 <;> [skip; congr 1 <;> [skip; congr 1 <;> [skip; congr 1 <;>
    [skip; congr 1]]]]] <;> split <;> simp_all

theorem keyShape_onKeyDown (ks : KeyState) (key : String) (h : KeyShape ks) :
    KeyShape (onKeyDown key ks) := by
  unfold onKeyDown
  by_cases hp : hasOwnProperty ks (toLowerCase key) = true
  · simp only [hp, if_true]
    exact keyShape_assign ks key true h
  · simp only [hp]
    exact h

theorem keyShape_onKeyUp (ks : KeyState) (key : String) (h : KeyShape ks) :
    KeyShape (onKeyUp key ks) := by
  unfold onKeyUp
  by_cases hp : hasOwnProperty ks (toLowerCase key) = true
  · simp only [hp, if_true]
    exact keyShape_assign ks key false h
  · simp only [hp]
    exact h

theorem onPresetKey_keyState [Field α] (key : String) (s : Scene α) :
    (onPresetKey key s).keyState = s.keyState := by
  unfold onPresetKey
  split_ifs <;> rfl

theorem keyShape_dispatch [Field α] (e : KeyEvent) (s : Scene α) (h : KeyShape s.keyState) :
    KeyShape (dispatch e s).keyState := by
  cases e with
  | keydown key =>
    simp only [dispatch, onPresetKey_keyState]
    exact keyShape_onKeyDown s.keyState key h
  | keyup key =>
    simp only [dispatch]
    exact keyShape_onKeyUp s.keyState key h

theorem keyShape_dispatchAll [Field α] (es : List KeyEvent) (s : Scene α)
    (h : KeyShape s.keyState) : KeyShape (dispatchAll es s).keyState := by
  induction es generalizing s with
  | nil => exact h
  | cons e es ih => exact ih (dispatch e s) (keyShape_dispatch e s h)

theorem keyShape_arrow_flags (ks : KeyState) (h : KeyShape ks) :
    flag ks "arrowup" = false ∧ flag ks "arrowdown" = false ∧
    flag ks "arrowleft" = false ∧ flag ks "arrowright" = false ∧
    flag ks "ArrowUp" = false ∧ flag ks "ArrowDown" = false ∧
    flag ks "ArrowLeft" = false ∧ flag ks "ArrowRight" = false := by
  obtain ⟨w, a, s, d, q, e, rfl⟩ := h
  simp [flag, List.lookup]

theorem keyShape_arrow_down [Field α] (s : Scene α) (h : KeyShape s.keyState) :
    dispatch (.keydown "ArrowUp") s = s ∧ dispatch (.keydown "ArrowDown") s = s ∧
    dispatch (.keydown "ArrowLeft") s = s ∧ dispatch (.keydown "ArrowRight") s = s := by
  obtain ⟨w, a, sv, d, q, e, hks⟩ := h
  obtain ⟨h1, h2, h3, h4⟩ := toLowerCase_arrows
  cases s with
  | mk ks cam tgt rot =>
    simp only at hks
    subst hks
    refine ⟨?_, ?_, ?_, ?_⟩ <;>
      simp [dispatch, onKeyDown, onPresetKey, hasOwnProperty, h1, h2, h3, h4]

theorem handleKeyboard_idle [Field α] (ks : KeyState) (dt : α) (p : Vector3 α)
    (hu : flag ks "arrowup" = false) (hd : flag ks "arrowdown" = false)
    (hl : flag ks "arrowleft" = false) (hr : flag ks "arrowright" = false)
    (h : flag ks "w" = false ∧ flag ks "a" = false ∧ flag ks "s" = false ∧
      flag ks "d" = false ∧ flag ks "q" = false ∧ flag ks "e" = false) :
    handleKeyboard ks dt p = p := by
  obtain ⟨h1, h2, h3, h4, h5, h6⟩ := h
  simp [handleKeyboard, hu, hd, hl, hr, h1, h2, h3, h4, h5, h6]

/-- C12: after every sequence of keydown/keyup events from the initial
`keyState`, the flags `arrowup`, `arrowdown`, `arrowleft`, `arrowright` read by
`handleKeyboard` are false (and the stored `ArrowUp` ... entries are still
false); `handleKeyboard(dt)` leaves the camera position unchanged unless one of
`w`, `a`, `s`, `d`, `q`, `e` is set; and a keydown of an arrow key changes
neither `keyState` nor the camera. -/
theorem arrow_keys_never_move [Field α] (es : List KeyEvent) (dt : α) (p : Vector3 α) :
    (flag (dispatchAll es (initialScene : Scene α)).keyState "arrowup" = false ∧
      flag (dispatchAll es (initialScene : Scene α)).keyState "arrowdown" = false ∧
      flag (dispatchAll es (initialScene : Scene α)).keyState "arrowleft" = false ∧
      flag (dispatchAll es (initialScene : Scene α)).keyState "arrowright" = false ∧
      flag (dispatchAll es (initialScene : Scene α)).keyState "ArrowUp" = false ∧
      flag (dispatchAll es (initialScene : Scene α)).keyState "ArrowDown" = false ∧
      flag (dispatchAll es (initialScene : Scene α)).keyState "ArrowLeft" = false ∧
      flag (dispatchAll es (initialScene : Scene α)).keyState "ArrowRight" = false) ∧
    ((flag (dispatchAll es (initialScene : Scene α)).keyState "w" = false ∧
        flag (dispatchAll es (initialScene : Scene α)).keyState "a" = false ∧
        flag (dispatchAll es (initialScene : Scene α)).keyState "s" = false ∧
        flag (dispatchAll es (initialScene : Scene α)).keyState "d" = false ∧
        flag (dispatchAll es (initialScene : Scene α)).keyState "q" = false ∧
        flag (dispatchAll es (initialScene : Scene α)).keyState "e" = false) →
      handleKeyboard (dispatchAll es (initialScene : Scene α)).keyState dt p = p) ∧
    (dispatch (.keydown "ArrowUp") (dispatchAll es (initialScene : Scene α)) =
        dispatchAll es initialScene ∧
      dispatch (.keydown "ArrowDown") (dispatchAll es (initialScene : Scene α)) =
        dispatchAll es initialScene ∧
      dispatch (.keydown "ArrowLeft") (dispatchAll es (initialScene : Scene α)) =
        dispatchAll es initialScene ∧
      dispatch (.keydown "ArrowRight") (dispatchAll es (initialScene : Scene α)) =
        dispatchAll es initialScene) := by
  have hshape : KeyShape (dispatchAll es (initialScene : Scene α)).keyState :=
    keyShape_dispatchAll es initialScene keyShape_initial
  have hf := keyShape_arrow_flags _ hshape
  refine ⟨hf, fun h => ?_, keyShape_arrow_down _ hshape⟩
  exact handleKeyboard_idle _ dt p hf.1 hf.2.1 hf.2.2.1 hf.2.2.2.1 h

theorem arrow_keys_never_move_witness :
    flag (dispatchAll [.keydown "ArrowUp", .keydown "ArrowLeft", .keyup "ArrowLeft"]
      (initialScene : Scene ℚ)).keyState "arrowup" = false ∧
    handleKeyboard (dispatchAll [.keydown "ArrowUp", .keydown "ArrowLeft", .keyup "ArrowLeft"]
      (initialScene : Scene ℚ)).keyState (1 : ℚ) ⟨0, 25, 40⟩ = ⟨0, 25, 40⟩ := by
  have h := arrow_keys_never_move (α := ℚ)
    [.keydown "ArrowUp", .keydown "ArrowLeft", .keyup "ArrowLeft"] 1 ⟨0, 25, 40⟩
  refine ⟨h.1.1, h.2.1 ?_⟩
  have e : (dispatchAll [.keydown "ArrowUp", .keydown "ArrowLeft", .keyup "ArrowLeft"]
      (initialScene : Scene ℚ)).keyState = initialKeyState := by
    have h0 := (keyShape_arrow_down (initialScene : Scene ℚ) keyShape_initial)
    have hu : onKeyUp "ArrowLeft" initialKeyState = initialKeyState := by
      simp [onKeyUp, toLowerCase_arrows.2.2.1, hasOwnProperty, initialKeyState]
    simp only [dispatchAll, List.foldl, h0.1, h0.2.2.1]
    simp only [dispatch, initialScene, hu]
  rw [e]
  decide

end PeacefulValley
